import Mathlib

/-!
Verification of the Tank Battle real-time match synchronization subsystem.

The repository splits into a Python backend (described by
`backend/DATABASE.md` and the persistence-layer summary) and a React/TS
frontend (`frontend/src`).  The backend implementation files
(`app/models/room.py`, `app/services/room_service.py`,
`app/services/game_service.py`, the websocket tick engine) are not part of
the source tree given here, so the room state machine, tick engine and
connection registry are modelled from the specification; the frontend
(`frontend/src/game/GameEngine.ts`, `frontend/src/services/websocket.ts`,
`frontend/src/types/index.ts`) is embedded directly from its source.
-/

namespace TankGame

/-- Room lifecycle status.  From the backend data model
(`rooms.status`: WAITING, ACTIVE, FINISHED, see `backend/DATABASE.md`). -/
inductive RoomStatus
  | Waiting
  | Active
  | Finished
deriving DecidableEq, Repr

/-- A room membership row: binds one player to a room with a readiness
flag (`room_memberships`: `player_id`, `is_ready`). -/
structure Membership where
  player_id : Nat
  is_ready : Bool
deriving DecidableEq, Repr

/-- A game room (`rooms`: `code`, `name`, `status`, `max_players`). -/
structure Room where
  code : String
  name : String
  max_players : Nat
  status : RoomStatus
  members : List Membership
deriving DecidableEq, Repr

/-- Error taxonomy of the room state machine and connection registry
(spec section 7). -/
inductive RoomError
  | InvalidState
  | RoomFull
  | RoomNotFound
  | NotAMember
  | NotEnoughPlayers
  | NotAllReady
  | RateLimited
  | OutOfBounds
deriving DecidableEq, Repr

/-- Computed property `current_players` of the Room model. -/
def Room.current_players (r : Room) : Nat := r.members.length

/-- Computed property `is_full` of the Room model: membership count has
reached `max_players`. -/
def Room.is_full (r : Room) : Bool := decide (r.max_players ≤ r.current_players)

/-- Computed property `can_start` of the Room model: the room is waiting,
has at least two members, and every member is ready. -/
def Room.can_start (r : Room) : Bool :=
  decide (r.status = RoomStatus.Waiting) && decide (2 ≤ r.current_players) &&
    r.members.all (fun m => m.is_ready)

/-- Modelled from the spec: `RoomService.join_room`
(`app/services/room_service.py`) is not under `src/`.  Spec section 4.1:
join is allowed only in `Waiting` and only if membership count < capacity;
joining a full room always fails with `RoomFull` (section 8), a
non-`Waiting` room fails with `InvalidState`.  The new member starts not
ready. -/
def Room.join (r : Room) (pid : Nat) : Except RoomError Room :=
  if r.is_full then Except.error RoomError.RoomFull
  else if r.status ≠ RoomStatus.Waiting then Except.error RoomError.InvalidState
  else Except.ok { r with members := r.members ++ [⟨pid, false⟩] }

/-- Modelled from the spec: `RoomService.leave_room` is not under `src/`.
Spec section 4.1: leave is allowed in any state and removes the
membership. -/
def Room.leave (r : Room) (pid : Nat) : Room :=
  { r with members := r.members.filter (fun m => m.player_id != pid) }

/-- Modelled from the spec: `RoomService.set_ready` is not under `src/`.
Spec section 4.1: allowed only in `Waiting`, otherwise `InvalidState`. -/
def Room.setReady (r : Room) (pid : Nat) (b : Bool) : Except RoomError Room :=
  if r.status ≠ RoomStatus.Waiting then Except.error RoomError.InvalidState
  else
    let ms := r.members.map (fun m => if m.player_id = pid then { m with is_ready := b } else m)
    Except.ok { r with members := ms }

/-- Modelled from the spec: `RoomService.start_game` is not under `src/`
(only the `Room.can_start` computed property is described in the
persistence-layer summary).  Spec section 4.1: allowed only in `Waiting`,
requires at least 2 members and all members ready; fails with
`NotEnoughPlayers` or `NotAllReady`; on success transitions to
`Active`. -/
def Room.start (r : Room) : Except RoomError Room :=
  if r.status ≠ RoomStatus.Waiting then Except.error RoomError.InvalidState
  else if r.current_players < 2 then Except.error RoomError.NotEnoughPlayers
  else if r.members.all (fun m => m.is_ready) then
    Except.ok { r with status := RoomStatus.Active }
  else Except.error RoomError.NotAllReady

/-- Modelled from the spec: `end(reason)` is not under `src/`.  Spec
section 4.1: allowed only in `Active`; transitions to `Finished`; a second
call is a no-op, not an error. -/
def Room.endMatch (r : Room) : Room :=
  if r.status = RoomStatus.Active then { r with status := RoomStatus.Finished } else r

/-- One operation of the room state machine (spec section 4.1). -/
inductive RoomOp
  | join (pid : Nat)
  | leave (pid : Nat)
  | setReady (pid : Nat) (b : Bool)
  | start
  | endMatch
deriving DecidableEq, Repr

/-- Apply one state-machine operation; a failing operation leaves the room
unchanged (the error is reported to the caller, spec section 7). -/
def Room.applyOp (r : Room) (op : RoomOp) : Room :=
  match op with
  | RoomOp.join pid =>
      match r.join pid with
      | Except.ok r2 => r2
      | Except.error _ => r
  | RoomOp.leave pid => r.leave pid
  | RoomOp.setReady pid b =>
      match r.setReady pid b with
      | Except.ok r2 => r2
      | Except.error _ => r
  | RoomOp.start =>
      match r.start with
      | Except.ok r2 => r2
      | Except.error _ => r
  | RoomOp.endMatch => r.endMatch

/-- Run a sequence of room state-machine operations. -/
def Room.run (r : Room) (ops : List RoomOp) : Room := ops.foldl Room.applyOp r

/-! Numeric helpers.  Explicit definitions are used instead of the
order-theoretic `min`/`max`/`abs` so every definition reduces inside the
kernel on concrete rationals. -/

/-- Minimum of two rationals. -/
def minQ (a b : ℚ) : ℚ := if a ≤ b then a else b

/-- Maximum of two rationals. -/
def maxQ (a b : ℚ) : ℚ := if a ≤ b then b else a

/-- Absolute value of a rational. -/
def absQ (a : ℚ) : ℚ := if a < 0 then -a else a

/-- Clamp a rational into the closed interval from `lo` to `hi`. -/
def clampQ (lo hi v : ℚ) : ℚ := maxQ lo (minQ hi v)

/-- Clamp an integer into the closed interval from `lo` to `hi`. -/
def clampI (lo hi v : Int) : Int := if v ≤ lo then lo else if hi ≤ v then hi else v

/-! Match constants.  Bounds come from the seeded map layout
(Classic Arena, 800 by 600, see `backend/DATABASE.md`); speed and rotation
rate come from the frontend engine (`speed = 200`, `rotationSpeed = 3` in
`GameEngine.handlePlayerControls`); the default projectile damage comes
from the `projectiles.damage` column default (25).  The tick step is the
spec example of 1/20 second; the lifetime cap, fire interval, hit radius
and projectile speed are not fixed anywhere in the source and are modelled
as concrete constants (spec section 9 leaves them open). -/

def boundsWidth : ℚ := 800

def boundsHeight : ℚ := 600

def tickStep : ℚ := 1 / 20

def maxSpeed : ℚ := 200

def maxRotRate : ℚ := 3

def defaultDamage : Int := 25

def projectileSpeed : ℚ := 400

def maxLifetimeTicks : Nat := 60

def minFireIntervalTicks : Nat := 10

def hitRadius : ℚ := 20

/-- Trigonometry parameters.  Positions are floating point in the source;
the cosine and sine used to derive muzzle offsets and projectile
velocities are abstracted as rational-valued parameters. -/
structure EngineParams where
  cosQ : ℚ → ℚ
  sinQ : ℚ → ℚ

/-- A tank's live combat state (`tank_states`: position, rotation, hp,
max_hp, velocity; plus the alive flag and per-match kill and death
counters of the spec data model). -/
structure Tank where
  player_id : Nat
  position_x : ℚ
  position_y : ℚ
  rotation : ℚ
  hp : Int
  max_hp : Int
  velocity_x : ℚ
  velocity_y : ℚ
  alive : Bool
  kills : Nat
  deaths : Nat
deriving DecidableEq, Repr

/-- A fired shot in flight (`projectiles`: `shooter_player_id`, position,
velocity, `damage`; the spawn time is the tick it was created on). -/
structure Projectile where
  id : Nat
  shooter_player_id : Nat
  position_x : ℚ
  position_y : ℚ
  velocity_x : ℚ
  velocity_y : ℚ
  damage : Int
  born_tick : Nat
deriving DecidableEq, Repr

/-- A buffered movement intent (the `tank_state_update` payload:
`x`, `y`, `rotation`, `velocity_x`, `velocity_y`). -/
structure MoveIntent where
  x : ℚ
  y : ℚ
  rotation : ℚ
  velocity_x : ℚ
  velocity_y : ℚ
deriving DecidableEq, Repr

/-- A buffered fire intent (the `fire` payload: `x`, `y`, `rotation`).
The engine is server-authoritative and spawns at the shooter's current
position and heading, so the payload is a trigger only. -/
structure FireIntent where
  x : ℚ
  y : ℚ
  rotation : ℚ
deriving DecidableEq, Repr

/-- Modelled from the spec: the Match State Store (spec section 2) is not
under `src/`.  In-memory authoritative state for one room's active
match. -/
structure MatchState where
  tanks : List Tank
  projectiles : List Projectile
  tick : Nat
  next_projectile_id : Nat
  last_fire : List (Nat × Nat)
  finished : Bool
deriving DecidableEq, Repr

/-- The intents buffered since the last tick, at most one per kind per
player (last-write-wins, spec section 5). -/
structure TickInput where
  moves : List (Nat × MoveIntent)
  fires : List (Nat × FireIntent)
deriving DecidableEq, Repr

/-- Modelled from the spec: intent buffering is last-write-wins per kind
per player (spec section 5); the newest intent replaces any pending one
for the same sender. -/
def bufferMove (buf : List (Nat × MoveIntent)) (pid : Nat) (i : MoveIntent) :
    List (Nat × MoveIntent) :=
  (pid, i) :: buf.filter (fun q => q.1 != pid)

/-- Modelled from the spec: server-authoritative intent application (spec
sections 4.3 step 1 and 9): position and heading deltas are clamped to the
maximum speed and rotation rate times the tick step, never trusted
verbatim, and the resulting position is clamped into the match bounds. -/
def applyMoveIntent (t : Tank) (i : MoveIntent) : Tank :=
  let maxD := maxSpeed * tickStep
  let maxR := maxRotRate * tickStep
  let dx := clampQ (-maxD) maxD (i.x - t.position_x)
  let dy := clampQ (-maxD) maxD (i.y - t.position_y)
  let dr := clampQ (-maxR) maxR (i.rotation - t.rotation)
  { t with
    position_x := clampQ 0 boundsWidth (t.position_x + dx)
    position_y := clampQ 0 boundsHeight (t.position_y + dy)
    rotation := t.rotation + dr
    velocity_x := clampQ (-maxSpeed) maxSpeed i.velocity_x
    velocity_y := clampQ (-maxSpeed) maxSpeed i.velocity_y }

/-- Tick step 1: apply the most recent pending movement intent per alive
player. -/
def moveStep (moves : List (Nat × MoveIntent)) (tanks : List Tank) : List Tank :=
  tanks.map (fun t =>
    match moves.lookup t.player_id with
    | some i => if t.alive then applyMoveIntent t i else t
    | none => t)

/-- Tick step 2: advance a projectile by velocity times step. -/
def integrateProjectile (p : Projectile) : Projectile :=
  { p with
    position_x := p.position_x + p.velocity_x * tickStep
    position_y := p.position_y + p.velocity_y * tickStep }

/-- A projectile position is inside the match bounds. -/
def projInBounds (p : Projectile) : Bool :=
  decide (0 ≤ p.position_x) && decide (p.position_x ≤ boundsWidth) &&
    decide (0 ≤ p.position_y) && decide (p.position_y ≤ boundsHeight)

/-- A projectile survives tick step 2 when it is in bounds and below the
maximum lifetime. -/
def projLive (now : Nat) (p : Projectile) : Bool :=
  projInBounds p && decide (now - p.born_tick < maxLifetimeTicks)

/-- Axis-aligned hit test between a projectile and a tank (the source
fixes no collision shape; spec section 9 leaves it open). -/
def hits (p : Projectile) (t : Tank) : Bool :=
  decide (absQ (p.position_x - t.position_x) ≤ hitRadius) &&
    decide (absQ (p.position_y - t.position_y) ≤ hitRadius)

/-- A tank is a candidate target of a projectile: alive, not the shooter,
and hit by the projectile. -/
def isTarget (p : Projectile) (t : Tank) : Bool :=
  t.alive && (t.player_id != p.shooter_player_id) && hits p t

/-- Fold picking the candidate with least player id. -/
def minByIdAux : Option Tank → List Tank → Option Tank
  | acc, [] => acc
  | none, t :: rest => minByIdAux (some t) rest
  | some u, t :: rest =>
      minByIdAux (some (if t.player_id < u.player_id then t else u)) rest

/-- Tick step 3 target choice: the first collided target of a projectile,
ties broken by ascending tank id for determinism (spec section 4.3). -/
def firstTarget (p : Projectile) (tanks : List Tank) : Option Tank :=
  minByIdAux none (tanks.filter (isTarget p))

/-- Apply damage to a tank: health is clamped to the closed interval from
0 to `max_hp`, and the alive flag is recomputed from the clamped
health. -/
def damageTank (dmg : Int) (t : Tank) : Tank :=
  { t with hp := clampI 0 t.max_hp (t.hp - dmg),
           alive := decide (0 < clampI 0 t.max_hp (t.hp - dmg)) }

/-- Modelled from the spec: damage resolution for one projectile (spec
section 4.3 step 3).  If the projectile has a first collided target, that
one tank takes the projectile's damage; if the resulting health reached
zero the victim is marked not alive, its death count increments, and the
shooter's kill count increments; the projectile is consumed. -/
def resolveProjectile (p : Projectile) (tanks : List Tank) : List Tank × Bool :=
  match firstTarget p tanks with
  | none => (tanks, false)
  | some v =>
      let killed := decide (v.hp - p.damage ≤ 0)
      (tanks.map (fun t =>
        if t.player_id = v.player_id then
          let t2 := damageTank p.damage t
          if killed then { t2 with deaths := t2.deaths + 1 } else t2
        else if killed && (t.player_id == p.shooter_player_id) then
          { t with kills := t.kills + 1 }
        else t), true)

/-- Tick step 3 over all live projectiles, in order; consumed projectiles
are removed, the rest survive. -/
def collisionStep : List Projectile → List Tank → List Tank × List Projectile
  | [], tanks => (tanks, [])
  | p :: rest, tanks =>
      let rp := resolveProjectile p tanks
      let cs := collisionStep rest rp.1
      (cs.1, if rp.2 then cs.2 else p :: cs.2)

/-- Number of alive tanks. -/
def aliveCount (tanks : List Tank) : Nat := (tanks.filter (fun t => t.alive)).length

/-- Modelled from the spec: per-player fire rate limit (spec section 4.3
step 5): a player may fire only when at least the minimum fire interval
has passed since that player's last accepted shot. -/
def canFire (lf : List (Nat × Nat)) (pid now : Nat) : Bool :=
  match lf.lookup pid with
  | none => true
  | some last => decide (minFireIntervalTicks ≤ now - last)

/-- Record a player's last accepted fire tick. -/
def setLastFire (lf : List (Nat × Nat)) (pid now : Nat) : List (Nat × Nat) :=
  (pid, now) :: lf.filter (fun q => q.1 != pid)

/-- Spawn one projectile at the shooter's current position and heading,
with the default damage. -/
def mkProjectile (P : EngineParams) (pid idn : Nat) (t : Tank) (now : Nat) : Projectile :=
  { id := idn
    shooter_player_id := pid
    position_x := t.position_x
    position_y := t.position_y
    velocity_x := projectileSpeed * P.cosQ t.rotation
    velocity_y := projectileSpeed * P.sinQ t.rotation
    damage := defaultDamage
    born_tick := now }

/-- Tick step 5: handle the buffered fire intents.  Each accepted intent
spawns one projectile at the shooter's current position and heading;
intents inside the minimum fire interval are dropped, not queued.
Returns the spawned projectiles, the updated last-fire table and the next
projectile id. -/
def fireStep (P : EngineParams) (now : Nat) (tanks : List Tank)
    (lf0 : List (Nat × Nat)) (nid0 : Nat) (fires : List (Nat × FireIntent)) :
    List Projectile × List (Nat × Nat) × Nat :=
  fires.foldl (fun acc pf =>
    match tanks.find? (fun t => t.player_id == pf.1) with
    | none => acc
    | some t =>
        if t.alive && canFire acc.2.1 pf.1 now then
          (acc.1 ++ [mkProjectile P pf.1 acc.2.2 t now],
            setLastFire acc.2.1 pf.1 now, acc.2.2 + 1)
        else acc) ([], lf0, nid0)

/-- Modelled from the spec: the Game Tick Engine (spec section 4.3) is not
under `src/`.  One tick, in order: movement intent application, projectile
integration and expiry, collision and damage resolution, the
win/elimination check, fire intent handling. -/
def tickFun (P : EngineParams) (s : MatchState) (inp : TickInput) : MatchState :=
  if s.finished then s
  else
    let tanks1 := moveStep inp.moves s.tanks
    let projs1 := (s.projectiles.map integrateProjectile).filter (projLive s.tick)
    let cs := collisionStep projs1 tanks1
    let fin2 := decide (aliveCount cs.1 ≤ 1)
    let fs := fireStep P s.tick cs.1 s.last_fire s.next_projectile_id inp.fires
    { tanks := cs.1
      projectiles := cs.2 ++ fs.1
      tick := s.tick + 1
      next_projectile_id := fs.2.2
      last_fire := fs.2.1
      finished := fin2 }

/-- Tick step 6: the immutable snapshot published after a tick (all tank
states and all live projectiles). -/
structure Snapshot where
  tanks : List Tank
  projectiles : List Projectile
deriving DecidableEq, Repr

/-- Build the snapshot of a match state. -/
def MatchState.snapshot (s : MatchState) : Snapshot :=
  { tanks := s.tanks, projectiles := s.projectiles }

/-- Run the tick engine over a sequence of buffered tick inputs. -/
def runTicks (P : EngineParams) (s : MatchState) (ins : List TickInput) : MatchState :=
  ins.foldl (tickFun P) s

/-- The sequence of snapshots emitted while running the tick engine, one
per tick. -/
def runSnapshots (P : EngineParams) (s : MatchState) : List TickInput → List Snapshot
  | [] => []
  | i :: rest => (tickFun P s i).snapshot :: runSnapshots P (tickFun P s i) rest

/-- The per-tank state invariant: health in the closed interval from 0 to
`max_hp`, and the alive flag equals the predicate that health is
positive. -/
def tankInv (t : Tank) : Prop :=
  0 ≤ t.hp ∧ t.hp ≤ t.max_hp ∧ t.alive = decide (0 < t.hp)

instance instDecidableTankInv (t : Tank) : Decidable (tankInv t) := by
  unfold tankInv; infer_instance

/-! Frontend game engine, embedded from
`frontend/src/game/GameEngine.ts`. -/

/-- The `GameControls` interface of the frontend engine; `fire` is set on
a space keydown and cleared by the engine after a single shot. -/
structure GameControls where
  moveUp : Bool
  moveDown : Bool
  moveLeft : Bool
  moveRight : Bool
  fire : Bool
deriving DecidableEq, Repr

/-- Space keydown handler: sets the fire flag (`setupKeyboardControls`). -/
def keydownSpace (c : GameControls) : GameControls := { c with fire := true }

/-- Space keyup handler: clears the fire flag. -/
def keyupSpace (c : GameControls) : GameControls := { c with fire := false }

/-- The fields of the local player's tank that
`GameEngine.handlePlayerControls` reads and writes. -/
structure ClientTank where
  x : ℚ
  y : ℚ
  rotation : ℚ
deriving DecidableEq, Repr

/-- One `onFireProjectile` callback invocation (its `x`, `y`, `rotation`
arguments). -/
structure FireEvent where
  x : ℚ
  y : ℚ
  rotation : ℚ
deriving DecidableEq, Repr

/-- One `onTankStateChange` callback invocation. -/
structure TankStateMsg where
  x : ℚ
  y : ℚ
  rotation : ℚ
  velocity_x : ℚ
  velocity_y : ℚ
deriving DecidableEq, Repr

/-- `speed` in `handlePlayerControls`: 200 pixels per second. -/
def clientSpeed : ℚ := 200

/-- `rotationSpeed` in `handlePlayerControls`: 3 radians per second. -/
def clientRotationSpeed : ℚ := 3

/-- Result of one `handlePlayerControls` call: the updated controls, the
updated player tank, the fire events emitted and the state-change
message. -/
structure ControlsResult where
  controls : GameControls
  tank : ClientTank
  fired : List FireEvent
  stateMsg : TankStateMsg
deriving DecidableEq, Repr

/-- Embedding of `GameEngine.handlePlayerControls` (`dt` in
milliseconds): sets the velocity from the up and down keys (a later
assignment wins), adjusts a local rotation from the left and right keys,
integrates and clamps the position to the 20 to 780 by 20 to 580 box,
fires at most one projectile per call and clears the fire flag
(single shot per key press), and reports the state change.  The tank's
own stored rotation is not written by the source, only the local copy is
reported. -/
def handlePlayerControls (P : EngineParams) (c : GameControls) (t : ClientTank)
    (dt : ℚ) : ControlsResult :=
  let velocityX : ℚ := 0
  let vy1 : ℚ := if c.moveUp then -clientSpeed else 0
  let velocityY : ℚ := if c.moveDown then clientSpeed else vy1
  let r1 := if c.moveLeft then t.rotation - clientRotationSpeed * dt / 1000 else t.rotation
  let rot := if c.moveRight then r1 + clientRotationSpeed * dt / 1000 else r1
  let x2 := maxQ 20 (minQ 780 (t.x + velocityX * dt / 1000))
  let y2 := maxQ 20 (minQ 580 (t.y + velocityY * dt / 1000))
  let fired := if c.fire then
      [({ x := x2 + P.cosQ t.rotation * 30, y := y2 + P.sinQ t.rotation * 30,
          rotation := t.rotation } : FireEvent)]
    else []
  let c2 := if c.fire then { c with fire := false } else c
  { controls := c2
    tank := { x := x2, y := y2, rotation := t.rotation }
    fired := fired
    stateMsg := { x := x2, y := y2, rotation := rot,
                  velocity_x := velocityX, velocity_y := velocityY } }

/-- The engine state read by `GameEngine.update`. -/
structure EngineClientState where
  controls : GameControls
  tank : ClientTank
  lastUpdateTime : ℚ
deriving DecidableEq, Repr

/-- Embedding of `GameEngine.update`: frames closer than 16 milliseconds
to the last processed update are skipped entirely, otherwise the controls
are processed.  The elapsed time is passed to the controls handler. -/
def engineUpdate (P : EngineParams) (st : EngineClientState) (now : ℚ) :
    EngineClientState × List FireEvent :=
  if now - st.lastUpdateTime < 16 then (st, [])
  else
    let r := handlePlayerControls P st.controls st.tank (now - st.lastUpdateTime)
    ({ controls := r.controls, tank := r.tank, lastUpdateTime := now }, r.fired)

/-! Connection registry. -/

/-- A live connection bound to one room and player pair. -/
structure Connection where
  id : Nat
  room : String
  player : Nat
deriving DecidableEq, Repr

/-- Modelled from the spec: the Connection Registry (spec section 4.2) is
not under `src/`.  `conns` are the active connections, `closed` the ids of
connections closed so far. -/
structure Registry where
  conns : List Connection
  closed : List Nat
  next_id : Nat
deriving DecidableEq, Repr

/-- At most one active connection per room and player pair. -/
def Registry.uniquePairs (reg : Registry) : Prop :=
  (reg.conns.map (fun c => (c.room, c.player))).Nodup

/-- Modelled from the spec: `attach(room, player, transport)` (spec
section 4.2): fails with `RoomNotFound` when the room does not exist and
with `NotAMember` when the player has no membership; otherwise any prior
connection for the same room and player pair is closed first and the new
connection is registered (supersession, not rejection). -/
def Registry.attach (reg : Registry) (rooms : List Room) (roomCode : String)
    (pid : Nat) : Except RoomError Registry :=
  match rooms.find? (fun r => r.code == roomCode) with
  | none => Except.error RoomError.RoomNotFound
  | some r =>
      if r.members.any (fun m => m.player_id == pid) then
        let prior := reg.conns.filter (fun c => c.room == roomCode && c.player == pid)
        let kept := reg.conns.filter (fun c => !(c.room == roomCode && c.player == pid))
        Except.ok
          { conns := kept ++ [⟨reg.next_id, roomCode, pid⟩]
            closed := reg.closed ++ prior.map Connection.id
            next_id := reg.next_id + 1 }
      else Except.error RoomError.NotAMember

/-! Frontend WebSocket client, embedded from
`frontend/src/services/websocket.ts`. -/

/-- A websocket message: a `type` tag and a payload object, modelled as an
ordered list of numeric fields. -/
structure WSMessage where
  type : String
  fields : List (String × ℚ)
deriving DecidableEq, Repr

/-- Embedding of `WebSocketService.sendTankStateUpdate`: the movement
message has type `tank_state_update` and payload fields `x`, `y`,
`rotation`, `velocity_x`, `velocity_y`. -/
def sendTankStateUpdate (x y rotation velocityX velocityY : ℚ) : WSMessage :=
  { type := "tank_state_update"
    fields := [("x", x), ("y", y), ("rotation", rotation),
               ("velocity_x", velocityX), ("velocity_y", velocityY)] }

/-- Embedding of `WebSocketService.sendFireProjectile`. -/
def sendFireProjectile (x y rotation : ℚ) : WSMessage :=
  { type := "fire", fields := [("x", x), ("y", y), ("rotation", rotation)] }

/-- The `WebSocket.readyState` values. -/
inductive ReadyState
  | CONNECTING
  | OPEN
  | CLOSING
  | CLOSED
deriving DecidableEq, Repr

/-- The mutable fields of the `WebSocketService` class; `ws` is `none`
when no socket object exists, otherwise it carries the socket's ready
state. -/
structure WebSocketServiceState where
  ws : Option ReadyState
  reconnectAttempts : Nat
  isConnecting : Bool
  currentRoomCode : Option String
deriving DecidableEq, Repr

/-- Result of one `WebSocketService.send` call: the client state
afterwards, the messages handed to the socket and the console warnings
emitted. -/
structure SendResult where
  state : WebSocketServiceState
  sent : List WSMessage
  warnings : List String
deriving DecidableEq, Repr

/-- Embedding of `WebSocketService.send`: if the socket exists and is
`OPEN` the message is serialized and sent, otherwise only a warning is
logged; no field of the service is written in either case and no message
is stored. -/
def wsSend (st : WebSocketServiceState) (msg : WSMessage) : SendResult :=
  match st.ws with
  | some ReadyState.OPEN => { state := st, sent := [msg], warnings := [] }
  | _ => { state := st, sent := [], warnings := ["WebSocket is not connected"] }

/-! Concrete sample data used to instantiate the theorems. -/

/-- A waiting room with two ready members. -/
def roomTwoReady : Room :=
  { code := "ROOM01", name := "Epic Battle", max_players := 8,
    status := RoomStatus.Waiting, members := [⟨1, true⟩, ⟨2, true⟩] }

/-- A waiting room at capacity. -/
def roomAtCapacity : Room :=
  { code := "ROOM02", name := "Duel", max_players := 2,
    status := RoomStatus.Waiting, members := [⟨1, false⟩, ⟨2, false⟩] }

/-- Sample trigonometry parameters. -/
def sampleParams : EngineParams := { cosQ := fun _ => 1, sinQ := fun _ => 0 }

/-- Tank of player 1. -/
def tankOne : Tank :=
  { player_id := 1, position_x := 100, position_y := 100, rotation := 0,
    hp := 100, max_hp := 100, velocity_x := 0, velocity_y := 0,
    alive := true, kills := 0, deaths := 0 }

/-- Tank of player 2, at 40 health. -/
def tankTwo : Tank :=
  { player_id := 2, position_x := 300, position_y := 100, rotation := 0,
    hp := 40, max_hp := 100, velocity_x := 0, velocity_y := 0,
    alive := true, kills := 0, deaths := 0 }

/-- A projectile of player 1 at player 2's position, with the default
damage of 25. -/
def sampleProjectile : Projectile :=
  { id := 0, shooter_player_id := 1, position_x := 300, position_y := 100,
    velocity_x := 400, velocity_y := 0, damage := 25, born_tick := 0 }

/-- A fresh two-tank match state. -/
def sampleMatch : MatchState :=
  { tanks := [tankOne, tankTwo], projectiles := [sampleProjectile],
    tick := 0, next_projectile_id := 1, last_fire := [], finished := false }

/-- A sample tick input: one movement intent and one fire intent. -/
def sampleInput : TickInput :=
  { moves := [(1, ⟨500, 500, 1, 0, 0⟩)], fires := [(2, ⟨300, 100, 0⟩)] }

/-- A movement intent far outside the reachable range. -/
def farIntent : MoveIntent := { x := 790, y := -50, rotation := 7, velocity_x := 999, velocity_y := 0 }

/-- Idle frontend controls. -/
def idleControls : GameControls :=
  { moveUp := false, moveDown := false, moveLeft := false, moveRight := false, fire := false }

/-- A frontend client tank. -/
def sampleClientTank : ClientTank := { x := 100, y := 100, rotation := 0 }

/-- A registry holding one connection for room `ROOM01`, player 1. -/
def sampleRegistry : Registry :=
  { conns := [⟨0, "ROOM01", 1⟩], closed := [], next_id := 1 }

/-- A client whose socket is still connecting. -/
def connectingClient : WebSocketServiceState :=
  { ws := some ReadyState.CONNECTING, reconnectAttempts := 0,
    isConnecting := true, currentRoomCode := some "ROOM01" }

/-- Default tank used with positional list access. -/
def defaultTank : Tank :=
  { player_id := 0, position_x := 0, position_y := 0, rotation := 0,
    hp := 0, max_hp := 0, velocity_x := 0, velocity_y := 0,
    alive := false, kills := 0, deaths := 0 }

/-! Theorems. -/

/-- Claim C1: `start()` succeeds iff the room's status is `Waiting`, the
membership count is at least 2, and every member is ready; in every other
case it fails with the specific error (`InvalidState`, `NotEnoughPlayers`
or `NotAllReady`), and a success always performs the transition to
`Active`, never silently doing nothing. -/
theorem start_succeeds_iff (r : Room) :
    ((∃ r2, r.start = Except.ok r2) ↔
      (r.status = RoomStatus.Waiting ∧ 2 ≤ r.current_players ∧
        ∀ m ∈ r.members, m.is_ready = true))
    ∧ (r.status ≠ RoomStatus.Waiting → r.start = Except.error RoomError.InvalidState)
    ∧ (r.status = RoomStatus.Waiting → r.current_players < 2 →
        r.start = Except.error RoomError.NotEnoughPlayers)
    ∧ (r.status = RoomStatus.Waiting → 2 ≤ r.current_players →
        (∃ m ∈ r.members, m.is_ready = false) →
        r.start = Except.error RoomError.NotAllReady)
    ∧ (∀ r2, r.start = Except.ok r2 → r2 = { r with status := RoomStatus.Active }) := by
  unfold Room.start
  split_ifs with h1 h2 h3
  · refine ⟨?_, fun _ => rfl, fun hw => absurd hw h1, fun hw => absurd hw h1,
      fun r2 h => by simp at h⟩
    constructor
    · rintro ⟨r2, h⟩; simp at h
    · rintro ⟨hw, -, -⟩; exact absurd hw h1
  · refine ⟨?_, fun hw => absurd hw h1, fun _ _ => rfl,
      fun _ hge _ => absurd hge (not_le.mpr h2), fun r2 h => by simp at h⟩
    constructor
    · rintro ⟨r2, h⟩; simp at h
    · rintro ⟨-, hge, -⟩; exact absurd hge (not_le.mpr h2)
  · rw [List.all_eq_true] at h3
    refine ⟨?_, fun hw => absurd hw h1, fun _ hlt => absurd hlt (not_lt.mpr (not_lt.mp h2)),
      ?_, ?_⟩
    · constructor
      · intro _
        exact ⟨not_not.mp h1, not_lt.mp h2, fun m hm => h3 m hm⟩
      · intro _; exact ⟨_, rfl⟩
    · rintro - - ⟨m, hm, hnr⟩
      have := h3 m hm
      rw [this] at hnr; cases hnr
    · intro r2 h
      exact (Except.ok.inj h).symm
  · rw [List.all_eq_true] at h3
    push_neg at h3
    refine ⟨?_, fun hw => absurd hw h1,
      fun _ hlt => absurd hlt (not_lt.mpr (not_lt.mp h2)), fun _ _ _ => rfl,
      fun r2 h => by simp at h⟩
    constructor
    · rintro ⟨r2, h⟩; simp at h
    · rintro ⟨-, -, hall⟩
      obtain ⟨m, hm, hnr⟩ := h3
      exact (hnr (hall m hm)).elim

/-- Witness: a waiting room with two ready members starts successfully. -/
theorem start_succeeds_iff_witness :
    ∃ r2, roomTwoReady.start = Except.ok r2 :=
  (start_succeeds_iff roomTwoReady).1.mpr ⟨rfl, by decide, by decide⟩

/-- Each state-machine operation preserves the capacity bound. -/
theorem applyOp_members_le (r : Room) (op : RoomOp)
    (h : r.current_players ≤ r.max_players) :
    (r.applyOp op).current_players ≤ (r.applyOp op).max_players := by
  cases op with
  | join pid =>
      simp only [Room.applyOp, Room.join, Room.is_full]
      split_ifs with hf hs
      · exact h
      · exact h
      · simp only [Room.current_players, List.length_append, List.length_cons,
          List.length_nil]
        have := of_decide_eq_false (Bool.of_not_eq_true hf)
        simp only [Room.current_players] at this h ⊢
        omega
  | leave pid =>
      simp only [Room.applyOp, Room.leave, Room.current_players] at *
      exact le_trans (List.length_filter_le _ _) h
  | setReady pid b =>
      simp only [Room.applyOp, Room.setReady]
      split_ifs with hs
      · exact h
      · simpa [Room.current_players] using h
  | start =>
      simp only [Room.applyOp, Room.start]
      split_ifs <;> simpa [Room.current_players] using h
  | endMatch =>
      simp only [Room.applyOp, Room.endMatch]
      split_ifs <;> simpa [Room.current_players] using h

/-- The capacity bound is preserved along any operation sequence. -/
theorem run_members_le (r : Room) (ops : List RoomOp)
    (h : r.current_players ≤ r.max_players) :
    (r.run ops).current_players ≤ (r.run ops).max_players := by
  induction ops generalizing r with
  | nil => exact h
  | cons op rest ih => exact ih (r.applyOp op) (applyOp_members_le r op h)

/-- Claim C2: along every operation sequence the membership count never
exceeds the room's capacity; a join succeeds iff the room is `Waiting`
and the count is strictly below capacity; joining a full room always
fails with `RoomFull`. -/
theorem members_never_exceed_capacity (r : Room)
    (h : r.current_players ≤ r.max_players) :
    (∀ ops : List RoomOp, (r.run ops).current_players ≤ (r.run ops).max_players)
    ∧ (∀ pid, (∃ r2, r.join pid = Except.ok r2) ↔
        (r.status = RoomStatus.Waiting ∧ r.current_players < r.max_players))
    ∧ (∀ pid, r.max_players ≤ r.current_players →
        r.join pid = Except.error RoomError.RoomFull) := by
  refine ⟨fun ops => run_members_le r ops h, fun pid => ?_, fun pid hfull => ?_⟩
  · unfold Room.join Room.is_full
    split_ifs with hf hs
    · constructor
      · rintro ⟨r2, hh⟩; simp at hh
      · rintro ⟨-, hlt⟩
        exact absurd (of_decide_eq_true hf) (not_le.mpr hlt)
    · constructor
      · rintro ⟨r2, hh⟩; simp at hh
      · rintro ⟨hw, -⟩; exact absurd hw hs
    · constructor
      · intro _
        refine ⟨not_not.mp hs, ?_⟩
        have := of_decide_eq_false (Bool.of_not_eq_true hf)
        omega
      · intro _; exact ⟨_, rfl⟩
  · unfold Room.join Room.is_full
    rw [if_pos (decide_eq_true hfull)]

/-- Witness: joining a waiting room already at capacity fails with
`RoomFull`. -/
theorem members_never_exceed_capacity_witness :
    roomAtCapacity.join 3 = Except.error RoomError.RoomFull :=
  (members_never_exceed_capacity roomAtCapacity (by decide)).2.2 3 (by decide)

/-- The element below the length accessed with a default is a member. -/
theorem getD_mem_of_lt (l : List Tank) (i : Nat) (d : Tank)
    (h : i < l.length) : l.getD i d ∈ l := by
  induction l generalizing i with
  | nil => simp at h
  | cons a l ih =>
      cases i with
      | zero => exact List.mem_cons_self _ _
      | succ n =>
          simp only [List.getD_cons_succ]
          exact List.mem_cons_of_mem _ (ih n (by simpa using h))

/-- Movement intent application touches neither health nor the alive
flag, so it preserves the tank invariant. -/
theorem tankInv_applyMoveIntent (t : Tank) (i : MoveIntent) (h : tankInv t) :
    tankInv (applyMoveIntent t i) := by
  simpa [applyMoveIntent, tankInv] using h

/-- Damage application clamps health into the closed interval from 0 to
`max_hp` and recomputes the alive flag, so it preserves the tank
invariant. -/
theorem tankInv_damageTank (d : Int) (t : Tank) (h : tankInv t) :
    tankInv (damageTank d t) := by
  obtain ⟨h1, h2, -⟩ := h
  unfold tankInv damageTank clampI
  refine ⟨?_, ?_, rfl⟩ <;> (dsimp only; split_ifs <;> omega)

/-- Resolving one projectile preserves the tank invariant of every
tank. -/
theorem resolveProjectile_inv (p : Projectile) (tanks : List Tank)
    (h : ∀ t ∈ tanks, tankInv t) :
    ∀ u ∈ (resolveProjectile p tanks).1, tankInv u := by
  unfold resolveProjectile
  cases hft : firstTarget p tanks with
  | none => simpa using h
  | some v =>
      intro u hu
      simp only [List.mem_map] at hu
      obtain ⟨t, ht, rfl⟩ := hu
      have hti := h t ht
      by_cases h1 : t.player_id = v.player_id
      · simp only [if_pos h1]
        split_ifs with hk
        · have h2 := tankInv_damageTank p.damage t hti
          simpa [tankInv] using h2
        · exact tankInv_damageTank p.damage t hti
      · simp only [if_neg h1]
        split_ifs with hk
        · simpa [tankInv] using hti
        · exact hti

/-- The whole collision step preserves the tank invariant of every
tank. -/
theorem collisionStep_inv (ps : List Projectile) (tanks : List Tank)
    (h : ∀ t ∈ tanks, tankInv t) :
    ∀ u ∈ (collisionStep ps tanks).1, tankInv u := by
  induction ps generalizing tanks with
  | nil => simpa [collisionStep] using h
  | cons p rest ih =>
      simp only [collisionStep]
      exact ih _ (resolveProjectile_inv p tanks h)

/-- The movement step preserves the tank invariant of every tank. -/
theorem moveStep_inv (moves : List (Nat × MoveIntent)) (tanks : List Tank)
    (h : ∀ t ∈ tanks, tankInv t) :
    ∀ u ∈ moveStep moves tanks, tankInv u := by
  intro u hu
  simp only [moveStep, List.mem_map] at hu
  obtain ⟨t, ht, rfl⟩ := hu
  have hti := h t ht
  cases hlk : moves.lookup t.player_id with
  | none => simpa [hlk] using hti
  | some i =>
      simp only [hlk]
      split_ifs
      · exact tankInv_applyMoveIntent t i hti
      · exact hti

/-- Claim C3: immediately after every tick's processing, every tank's
health lies in the closed interval from 0 to `max_hp` and its alive flag
equals the predicate that health is positive — the invariant is
established before the match and preserved by `tickFun`. -/
theorem tick_preserves_tank_invariants (P : EngineParams) (s : MatchState)
    (inp : TickInput) (h : ∀ t ∈ s.tanks, tankInv t) :
    ∀ t ∈ (tickFun P s inp).tanks, tankInv t := by
  unfold tickFun
  split_ifs with hf
  · exact h
  · intro t ht
    dsimp only at ht
    exact collisionStep_inv _ _ (moveStep_inv inp.moves s.tanks h) t ht

/-- Witness: the invariant holds for the first tank after one tick of the
sample match. -/
theorem tick_preserves_tank_invariants_witness :
    tankInv ((tickFun sampleParams sampleMatch sampleInput).tanks.getD 0 defaultTank) :=
  tick_preserves_tank_invariants sampleParams sampleMatch sampleInput (by decide)
    ((tickFun sampleParams sampleMatch sampleInput).tanks.getD 0 defaultTank)
    (getD_mem_of_lt _ 0 defaultTank (by with_unfolding_all decide))

/-- Positional access commutes with `map` below the length. -/
theorem getD_map_lt (f : Tank → Tank) (l : List Tank) (i : Nat) (d d2 : Tank)
    (h : i < l.length) : (l.map f).getD i d = f (l.getD i d2) := by
  induction l generalizing i with
  | nil => simp at h
  | cons a l ih =>
      cases i with
      | zero => rfl
      | succ n =>
          simp only [List.map_cons, List.getD_cons_succ]
          exact ih n (by simpa using h)

/-- The minimum-by-id fold returns a list member or the accumulator. -/
theorem minByIdAux_mem (cs : List Tank) (acc : Option Tank) (v : Tank)
    (h : minByIdAux acc cs = some v) : v ∈ cs ∨ acc = some v := by
  induction cs generalizing acc with
  | nil =>
      simp only [minByIdAux] at h
      exact Or.inr h
  | cons t rest ih =>
      cases acc with
      | none =>
          simp only [minByIdAux] at h
          rcases ih (some t) h with h2 | h2
          · exact Or.inl (List.mem_cons_of_mem _ h2)
          · cases Option.some.inj h2
            exact Or.inl (List.mem_cons_self _ _)
      | some u =>
          simp only [minByIdAux] at h
          rcases ih _ h with h2 | h2
          · exact Or.inl (List.mem_cons_of_mem _ h2)
          · have h3 := Option.some.inj h2
            split_ifs at h3
            · exact Or.inl (h3 ▸ List.mem_cons_self _ _)
            · exact Or.inr (congrArg some h3)

/-- The minimum-by-id fold returns an id below the accumulator's and
below every list element's. -/
theorem minByIdAux_min (cs : List Tank) (acc : Option Tank) (v : Tank)
    (h : minByIdAux acc cs = some v) :
    (∀ u, acc = some u → v.player_id ≤ u.player_id) ∧
      (∀ t ∈ cs, v.player_id ≤ t.player_id) := by
  induction cs generalizing acc with
  | nil =>
      simp only [minByIdAux] at h
      subst h
      refine ⟨fun u hu => ?_, by simp⟩
      cases Option.some.inj hu
      exact le_refl _
  | cons t rest ih =>
      cases acc with
      | none =>
          simp only [minByIdAux] at h
          have h2 := ih (some t) h
          refine ⟨by simp, fun x hx => ?_⟩
          rcases List.mem_cons.mp hx with rfl | hx2
          · exact h2.1 x rfl
          · exact h2.2 x hx2
      | some u =>
          simp only [minByIdAux] at h
          have h2 := ih _ h
          have hm := h2.1 _ rfl
          constructor
          · intro w hw
            cases Option.some.inj hw
            split_ifs at hm with ho
            · exact le_trans hm (le_of_lt ho)
            · exact hm
          · intro x hx
            rcases List.mem_cons.mp hx with rfl | hx2
            · split_ifs at hm with ho
              · exact hm
              · exact le_trans hm (not_lt.mp ho)
            · exact h2.2 x hx2

/-- A first collided target is a candidate with minimal player id among
the candidates. -/
theorem firstTarget_spec (p : Projectile) (tanks : List Tank) (v : Tank)
    (h : firstTarget p tanks = some v) :
    v ∈ tanks ∧ isTarget p v = true ∧
      ∀ t ∈ tanks, isTarget p t = true → v.player_id ≤ t.player_id := by
  unfold firstTarget at h
  rcases minByIdAux_mem _ _ _ h with hm | hm
  · have h2 := List.mem_filter.mp hm
    refine ⟨h2.1, h2.2, fun t ht htgt => ?_⟩
    exact (minByIdAux_min _ _ _ h).2 t (List.mem_filter.mpr ⟨ht, htgt⟩)
  · exact Option.noConfusion hm

/-- Damage resolution preserves the roster length. -/
theorem resolveProjectile_length (p : Projectile) (tanks : List Tank) :
    (resolveProjectile p tanks).1.length = tanks.length := by
  unfold resolveProjectile
  cases firstTarget p tanks <;> simp

/-- Claim C4: a projectile with a first collided target is consumed and
damages exactly that one tank — the candidate with minimal player id —
decrementing its health by exactly the projectile's damage; a hit that
brings health to zero or below clamps health at zero, marks the victim
not alive, increments its death count and increments the shooter's kill
count by exactly one; every other tank keeps its health, alive flag and
death count, and the shooter's kill count is untouched by a non-lethal
hit. -/
theorem projectile_single_damage (p : Projectile) (tanks : List Tank) (v : Tank)
    (hft : firstTarget p tanks = some v)
    (hd : 0 ≤ p.damage) (hv1 : v.hp ≤ v.max_hp)
    (hnd : (tanks.map Tank.player_id).Nodup) :
    (resolveProjectile p tanks).2 = true
    ∧ (resolveProjectile p tanks).1.length = tanks.length
    ∧ isTarget p v = true
    ∧ (∀ t ∈ tanks, isTarget p t = true → v.player_id ≤ t.player_id)
    ∧ ∀ i : Nat, i < tanks.length →
        (((tanks.getD i defaultTank).player_id ≠ v.player_id →
          ((resolveProjectile p tanks).1.getD i defaultTank).hp =
              (tanks.getD i defaultTank).hp
          ∧ ((resolveProjectile p tanks).1.getD i defaultTank).alive =
              (tanks.getD i defaultTank).alive
          ∧ ((resolveProjectile p tanks).1.getD i defaultTank).deaths =
              (tanks.getD i defaultTank).deaths)
        ∧ ((tanks.getD i defaultTank).player_id ≠ v.player_id →
            (tanks.getD i defaultTank).player_id ≠ p.shooter_player_id →
          (resolveProjectile p tanks).1.getD i defaultTank = tanks.getD i defaultTank)
        ∧ ((tanks.getD i defaultTank).player_id = v.player_id →
            (0 < v.hp - p.damage →
              ((resolveProjectile p tanks).1.getD i defaultTank).hp = v.hp - p.damage
              ∧ ((resolveProjectile p tanks).1.getD i defaultTank).alive = true
              ∧ ((resolveProjectile p tanks).1.getD i defaultTank).deaths =
                  (tanks.getD i defaultTank).deaths
              ∧ ((resolveProjectile p tanks).1.getD i defaultTank).kills =
                  (tanks.getD i defaultTank).kills)
            ∧ (v.hp - p.damage ≤ 0 →
              ((resolveProjectile p tanks).1.getD i defaultTank).hp = 0
              ∧ ((resolveProjectile p tanks).1.getD i defaultTank).alive = false
              ∧ ((resolveProjectile p tanks).1.getD i defaultTank).deaths =
                  (tanks.getD i defaultTank).deaths + 1))
        ∧ ((tanks.getD i defaultTank).player_id = p.shooter_player_id →
            (v.hp - p.damage ≤ 0 →
              ((resolveProjectile p tanks).1.getD i defaultTank).kills =
                  (tanks.getD i defaultTank).kills + 1)
            ∧ (0 < v.hp - p.damage →
              ((resolveProjectile p tanks).1.getD i defaultTank).kills =
                  (tanks.getD i defaultTank).kills))) := by
  obtain ⟨hvmem, hvt, hmin⟩ := firstTarget_spec p tanks v hft
  have hshoot : v.player_id ≠ p.shooter_player_id := by
    have h2 := hvt
    unfold isTarget at h2
    simp only [Bool.and_eq_true, bne_iff_ne, ne_eq] at h2
    exact h2.1.2
  have hmap : (resolveProjectile p tanks).1 =
      tanks.map (fun t =>
        if t.player_id = v.player_id then
          (if decide (v.hp - p.damage ≤ 0) = true then
            { damageTank p.damage t with deaths := (damageTank p.damage t).deaths + 1 }
           else damageTank p.damage t)
        else if (decide (v.hp - p.damage ≤ 0) &&
            (t.player_id == p.shooter_player_id)) = true then
          { t with kills := t.kills + 1 }
        else t) := by
    unfold resolveProjectile
    rw [hft]
  refine ⟨by unfold resolveProjectile; rw [hft], resolveProjectile_length p tanks,
    hvt, hmin, ?_⟩
  intro i hi
  rw [hmap, getD_map_lt _ _ _ _ defaultTank hi]
  have htmem : tanks.getD i defaultTank ∈ tanks := getD_mem_of_lt tanks i defaultTank hi
  by_cases hvid : (tanks.getD i defaultTank).player_id = v.player_id
  · have hveq : tanks.getD i defaultTank = v :=
      List.inj_on_of_nodup_map hnd htmem hvmem hvid
    rw [hveq, if_pos rfl]
    refine ⟨fun hne => absurd rfl hne, fun hne => absurd rfl hne, fun _ => ⟨?_, ?_⟩,
      fun hsh => absurd hsh hshoot⟩
    · intro hpos
      rw [if_neg (by simp only [decide_eq_true_eq]; exact not_le.mpr hpos)]
      unfold damageTank clampI
      refine ⟨?_, ?_, rfl, rfl⟩
      · dsimp only
        split_ifs <;> omega
      · dsimp only
        simp only [decide_eq_true_eq]
        split_ifs <;> omega
    · intro hle
      rw [if_pos (decide_eq_true hle)]
      unfold damageTank clampI
      refine ⟨?_, ?_, rfl⟩
      · dsimp only
        rw [if_pos hle]
      · dsimp only
        rw [if_pos hle]
        decide
  · rw [if_neg hvid]
    refine ⟨?_, ?_, fun h => absurd h hvid, ?_⟩
    · intro _
      split_ifs <;> exact ⟨rfl, rfl, rfl⟩
    · intro _ hns
      rw [if_neg ?_]
      simp only [Bool.and_eq_true, beq_iff_eq, decide_eq_true_eq, not_and]
      exact fun _ => hns
    · intro hsh
      constructor
      · intro hle
        rw [if_pos (by
          simp only [Bool.and_eq_true, decide_eq_true_eq, beq_iff_eq]
          exact ⟨hle, hsh⟩)]
      · intro hpos
        rw [if_neg (by
          simp only [Bool.and_eq_true, decide_eq_true_eq, beq_iff_eq, not_and]
          exact fun h => absurd h (not_le.mpr hpos))]

/-- Witness: the spec scenario — a 25 damage hit on a 40 health tank
leaves it at 15 health and alive. -/
theorem projectile_single_damage_witness :
    ((resolveProjectile sampleProjectile [tankOne, tankTwo]).1.getD 1 defaultTank).hp = 15
    ∧ ((resolveProjectile sampleProjectile [tankOne, tankTwo]).1.getD 1 defaultTank).alive
        = true := by
  have h := projectile_single_damage sampleProjectile [tankOne, tankTwo] tankTwo
    (by with_unfolding_all decide) (by decide) (by decide) (by decide)
  have h2 := ((h.2.2.2.2 1 (by decide)).2.2.1 (by decide)).1 (by decide)
  exact ⟨by rw [h2.1]; decide, h2.2.1⟩

/-- Claim C5: two fire intents received before one processed frame spawn
exactly one projectile at the shooter's current position and heading, the
engine clears the fire flag so the extra intent is silently dropped, and
the next processed update without a new intent spawns nothing — the extra
intent is never queued for a later tick. -/
theorem fire_intents_rate_limited (P : EngineParams) (c : GameControls)
    (t : ClientTank) (last now now2 : ℚ)
    (h1 : 16 ≤ now - last) (h2 : 16 ≤ now2 - now) :
    (engineUpdate P ⟨keydownSpace (keydownSpace c), t, last⟩ now).2.length = 1
    ∧ (engineUpdate P ⟨keydownSpace (keydownSpace c), t, last⟩ now).1.controls.fire
        = false
    ∧ (engineUpdate P
        (engineUpdate P ⟨keydownSpace (keydownSpace c), t, last⟩ now).1 now2).2
        = [] := by
  have hg1 : ¬ (now - last < 16) := not_lt.mpr h1
  have hg2 : ¬ (now2 - now < 16) := not_lt.mpr h2
  refine ⟨?_, ?_, ?_⟩ <;>
    simp [engineUpdate, handlePlayerControls, keydownSpace, hg1, hg2]

/-- Witness: the rate limit fires exactly once on sample data. -/
theorem fire_intents_rate_limited_witness :
    (engineUpdate sampleParams
        ⟨keydownSpace (keydownSpace idleControls), sampleClientTank, 0⟩ 16).2.length = 1
    ∧ (engineUpdate sampleParams
        ⟨keydownSpace (keydownSpace idleControls), sampleClientTank, 0⟩ 16).1.controls.fire
        = false
    ∧ (engineUpdate sampleParams
        (engineUpdate sampleParams
          ⟨keydownSpace (keydownSpace idleControls), sampleClientTank, 0⟩ 16).1 32).2
        = [] :=
  fire_intents_rate_limited sampleParams idleControls sampleClientTank 0 16 32
    (by with_unfolding_all decide) (by with_unfolding_all decide)

/-- Clamping lands inside the clamp interval. -/
theorem clampQ_mem (lo hi v : ℚ) (h : lo ≤ hi) :
    lo ≤ clampQ lo hi v ∧ clampQ lo hi v ≤ hi := by
  unfold clampQ maxQ minQ
  split_ifs <;> constructor <;> linarith

/-- Clamping into a symmetric interval bounds the absolute value. -/
theorem absQ_clamp_sym (m v : ℚ) (hm : 0 ≤ m) : absQ (clampQ (-m) m v) ≤ m := by
  unfold clampQ maxQ minQ absQ
  split_ifs <;> linarith

/-- Clamping a bounded start plus a delta into the bounds moves the point
by at most the delta's absolute value. -/
theorem clamp_move_abs (hi x d : ℚ) (h0 : 0 ≤ x) (h1 : x ≤ hi) :
    absQ (clampQ 0 hi (x + d) - x) ≤ absQ d := by
  unfold clampQ maxQ minQ absQ
  split_ifs <;> linarith

/-- Claim C6: the engine applies a movement intent server-side — the
position delta per tick is bounded by the maximum speed times the tick
step and the heading delta by the rotation rate times the tick step, with
out-of-range intents clamped rather than trusted verbatim, and the
applied position stays inside the match bounds. -/
theorem movement_server_clamped (t : Tank) (i : MoveIntent)
    (hx0 : 0 ≤ t.position_x) (hx1 : t.position_x ≤ boundsWidth)
    (hy0 : 0 ≤ t.position_y) (hy1 : t.position_y ≤ boundsHeight) :
    absQ ((applyMoveIntent t i).position_x - t.position_x) ≤ maxSpeed * tickStep
    ∧ absQ ((applyMoveIntent t i).position_y - t.position_y) ≤ maxSpeed * tickStep
    ∧ absQ ((applyMoveIntent t i).rotation - t.rotation) ≤ maxRotRate * tickStep
    ∧ 0 ≤ (applyMoveIntent t i).position_x
    ∧ (applyMoveIntent t i).position_x ≤ boundsWidth
    ∧ 0 ≤ (applyMoveIntent t i).position_y
    ∧ (applyMoveIntent t i).position_y ≤ boundsHeight := by
  have hmd : (0:ℚ) ≤ maxSpeed * tickStep := by
    unfold maxSpeed tickStep; norm_num
  have hmr : (0:ℚ) ≤ maxRotRate * tickStep := by
    unfold maxRotRate tickStep; norm_num
  have hbw : (0:ℚ) ≤ boundsWidth := by unfold boundsWidth; norm_num
  have hbh : (0:ℚ) ≤ boundsHeight := by unfold boundsHeight; norm_num
  unfold applyMoveIntent
  dsimp only
  refine ⟨?_, ?_, ?_, (clampQ_mem _ _ _ hbw).1, (clampQ_mem _ _ _ hbw).2,
    (clampQ_mem _ _ _ hbh).1, (clampQ_mem _ _ _ hbh).2⟩
  · exact le_trans (clamp_move_abs _ _ _ hx0 hx1) (absQ_clamp_sym _ _ hmd)
  · exact le_trans (clamp_move_abs _ _ _ hy0 hy1) (absQ_clamp_sym _ _ hmd)
  · rw [add_sub_cancel_left]
    exact absQ_clamp_sym _ _ hmr

/-- Witness: a far out-of-range intent is clamped on the sample tank. -/
theorem movement_server_clamped_witness :
    absQ ((applyMoveIntent tankOne farIntent).position_x - tankOne.position_x)
        ≤ maxSpeed * tickStep
    ∧ absQ ((applyMoveIntent tankOne farIntent).position_y - tankOne.position_y)
        ≤ maxSpeed * tickStep
    ∧ absQ ((applyMoveIntent tankOne farIntent).rotation - tankOne.rotation)
        ≤ maxRotRate * tickStep
    ∧ 0 ≤ (applyMoveIntent tankOne farIntent).position_x
    ∧ (applyMoveIntent tankOne farIntent).position_x ≤ boundsWidth
    ∧ 0 ≤ (applyMoveIntent tankOne farIntent).position_y
    ∧ (applyMoveIntent tankOne farIntent).position_y ≤ boundsHeight :=
  movement_server_clamped tankOne farIntent (by with_unfolding_all decide)
    (by with_unfolding_all decide) (by with_unfolding_all decide)
    (by with_unfolding_all decide)

/-- Claim C9: the tick function is deterministic given identical inputs —
the snapshot emitted at tick `n` of a run equals the snapshot obtained by
replaying the first `n + 1` buffered inputs, in order, against the fresh
match state the run started from. -/
theorem snapshot_replay_deterministic (P : EngineParams) (s : MatchState)
    (ins : List TickInput) (n : Nat) (d : Snapshot) (h : n < ins.length) :
    (runSnapshots P s ins).getD n d =
      (runTicks P s (ins.take (n + 1))).snapshot := by
  induction ins generalizing s n with
  | nil => exact absurd h (by simp)
  | cons i rest ih =>
      cases n with
      | zero => simp [runSnapshots, runTicks]
      | succ n =>
          simp only [runSnapshots, List.getD_cons_succ, List.take_succ_cons,
            runTicks, List.foldl_cons]
          exact ih (tickFun P s i) n (by simpa using h)

/-- Witness: replaying the single sample input reproduces the first
emitted snapshot. -/
theorem snapshot_replay_deterministic_witness :
    (runSnapshots sampleParams sampleMatch [sampleInput]).getD 0
        (MatchState.snapshot sampleMatch) =
      (runTicks sampleParams sampleMatch ([sampleInput].take 1)).snapshot :=
  snapshot_replay_deterministic sampleParams sampleMatch [sampleInput] 0
    (MatchState.snapshot sampleMatch) (by decide)

/-- Claim C7: attaching a connection for a room and player pair that
already has one closes the prior connection and registers the new one —
supersession, never rejection on that ground — and the registry keeps at
most one active connection per pair. -/
theorem attach_supersedes (reg : Registry) (rooms : List Room) (roomCode : String)
    (pid : Nat) (r : Room)
    (hfind : rooms.find? (fun q => q.code == roomCode) = some r)
    (hmem : r.members.any (fun m => m.player_id == pid) = true)
    (hu : reg.uniquePairs) :
    ∃ reg2, reg.attach rooms roomCode pid = Except.ok reg2
      ∧ reg2.uniquePairs
      ∧ (⟨reg.next_id, roomCode, pid⟩ : Connection) ∈ reg2.conns
      ∧ (∀ c ∈ reg.conns, c.room = roomCode → c.player = pid → c.id ∈ reg2.closed)
      ∧ (∀ c ∈ reg2.conns, c.room = roomCode → c.player = pid →
          c.id = reg.next_id) := by
  unfold Registry.attach
  rw [hfind]
  dsimp only
  rw [if_pos hmem]
  refine ⟨_, rfl, ?_, ?_, ?_, ?_⟩
  · unfold Registry.uniquePairs at *
    dsimp only
    rw [List.map_append, List.nodup_append]
    refine ⟨List.Nodup.sublist (List.Sublist.map _ (List.filter_sublist _)) hu,
      List.nodup_singleton _, ?_⟩
    intro q hq hq2
    simp only [List.map_cons, List.map_nil, List.mem_singleton] at hq2
    subst hq2
    simp only [List.mem_map, List.mem_filter] at hq
    obtain ⟨c, ⟨-, hcf⟩, hcp⟩ := hq
    have hroom : c.room = roomCode := congrArg Prod.fst hcp
    have hplayer : c.player = pid := congrArg Prod.snd hcp
    simp [hroom, hplayer] at hcf
  · dsimp only
    exact List.mem_append_right _ (List.mem_singleton.mpr rfl)
  · intro c hc hr hp2
    dsimp only
    refine List.mem_append_right _ ?_
    simp only [List.mem_map, List.mem_filter]
    exact ⟨c, ⟨hc, by simp [hr, hp2]⟩, rfl⟩
  · intro c hc hr hp2
    dsimp only at hc
    rcases List.mem_append.mp hc with hk | hk
    · have hcf := (List.mem_filter.mp hk).2
      simp [hr, hp2] at hcf
    · rw [List.mem_singleton.mp hk]

/-- Witness: attaching player 1 to room `ROOM01`, which already has a
connection for that pair, supersedes it. -/
theorem attach_supersedes_witness :
    ∃ reg2, sampleRegistry.attach [roomTwoReady] "ROOM01" 1 = Except.ok reg2
      ∧ reg2.uniquePairs
      ∧ (⟨sampleRegistry.next_id, "ROOM01", 1⟩ : Connection) ∈ reg2.conns
      ∧ (∀ c ∈ sampleRegistry.conns, c.room = "ROOM01" → c.player = 1 →
          c.id ∈ reg2.closed)
      ∧ (∀ c ∈ reg2.conns, c.room = "ROOM01" → c.player = 1 →
          c.id = sampleRegistry.next_id) :=
  attach_supersedes sampleRegistry [roomTwoReady] "ROOM01" 1 roomTwoReady
    (by with_unfolding_all decide) (by decide)
    (by unfold Registry.uniquePairs; decide)

/-- Claim C8 (counterexample): the client's movement intent message does
not have type `move` and does not carry `heading`, `velocityX`,
`velocityY` payload field names. -/
theorem move_message_type_counterexample :
    (sendTankStateUpdate 0 0 0 0 0).type = "tank_state_update"
    ∧ (sendTankStateUpdate 0 0 0 0 0).type ≠ "move"
    ∧ (sendTankStateUpdate 0 0 0 0 0).fields.map Prod.fst ≠
        ["x", "y", "heading", "velocityX", "velocityY"] :=
  ⟨rfl, by decide, by decide⟩

/-- Claim C8 (amended): every client-to-core movement intent message has
type `tank_state_update` and carries the payload fields `x`, `y`,
`rotation`, `velocity_x`, `velocity_y` with the sender's values, and
after buffering it is the sender's pending movement intent
(last-write-wins). -/
theorem tank_state_update_message_format (x y r vx vy : ℚ)
    (buf : List (Nat × MoveIntent)) (pid : Nat) :
    (sendTankStateUpdate x y r vx vy).type = "tank_state_update"
    ∧ (sendTankStateUpdate x y r vx vy).fields =
        [("x", x), ("y", y), ("rotation", r),
         ("velocity_x", vx), ("velocity_y", vy)]
    ∧ (bufferMove buf pid ⟨x, y, r, vx, vy⟩).lookup pid =
        some ⟨x, y, r, vx, vy⟩ := by
  refine ⟨rfl, rfl, ?_⟩
  simp [bufferMove, List.lookup]

/-- Claim C10: a send while the socket is absent or not `OPEN` is a
silent no-op — the service state is unchanged (nothing is buffered),
nothing reaches the socket, and only a warning is logged. -/
theorem send_not_open_noop (st : WebSocketServiceState) (msg : WSMessage)
    (h : st.ws ≠ some ReadyState.OPEN) :
    (wsSend st msg).state = st ∧ (wsSend st msg).sent = []
      ∧ (wsSend st msg).warnings = ["WebSocket is not connected"] := by
  unfold wsSend
  cases hws : st.ws with
  | none => exact ⟨rfl, rfl, rfl⟩
  | some rs =>
      cases rs with
      | OPEN => exact absurd hws h
      | CONNECTING => exact ⟨rfl, rfl, rfl⟩
      | CLOSING => exact ⟨rfl, rfl, rfl⟩
      | CLOSED => exact ⟨rfl, rfl, rfl⟩

/-- Witness: sending over a still-connecting socket drops the message and
changes nothing. -/
theorem send_not_open_noop_witness :
    (wsSend connectingClient (sendTankStateUpdate 1 2 3 4 5)).state = connectingClient
    ∧ (wsSend connectingClient (sendTankStateUpdate 1 2 3 4 5)).sent = []
    ∧ (wsSend connectingClient (sendTankStateUpdate 1 2 3 4 5)).warnings =
        ["WebSocket is not connected"] :=
  send_not_open_noop connectingClient (sendTankStateUpdate 1 2 3 4 5) (by decide)

end TankGame
